import Mathlib

/-!
Shallow embedding of the asynchronous call execution core of
`arwen/host/execution_async_context.go` (arwen-wasm-vm), together with
theorems settling the spec claims about it.

Bytes are modelled as `List Nat`, uint64 values as `Nat` with explicit
`2^64` overflow checks where the source checks overflow.  External
collaborators (parser, shard oracle, bytecode executor, metering) are an
environment record; the mutable host surfaces touched by this file
(transfers, storage writes, finish frames, metering balance) are an
explicit state record.
-/

namespace Arwen

/-- uint64 modulus. -/
def U64 : Nat := 2 ^ 64

/-- Errors produced (or runtime faults incurred) by the async core.
`nilPointerPanic` models a Go nil-pointer dereference. -/
inductive HostError where
  | notEnoughGas
  | invalidCallData
  | transferFailed
  | nilPointerPanic
  deriving DecidableEq, Repr

/-- Status of an `AsyncCall` (arwen `AsyncCallStatus`). -/
inductive AsyncCallStatus where
  | pending
  | resolvedOk
  | resolvedFailed
  deriving DecidableEq, Repr

/-- Execution mode of an `AsyncCall` (arwen `AsyncCallExecutionMode`). -/
inductive AsyncCallExecutionMode where
  | syncExecution
  | asyncBuiltinFunc
  | asyncUnknown
  deriving DecidableEq, Repr

/-- Call types of vmcommon. -/
inductive CallType where
  | directCall
  | asynchronousCall
  | asynchronousCallBack
  deriving DecidableEq, Repr

/-- One child invocation (arwen `AsyncCall`).  Gas fields are uint64
values modelled as `Nat`. -/
structure AsyncCall where
  status : AsyncCallStatus
  destination : List Nat
  data : List Nat
  valueBytes : List Nat
  gasLimit : Nat
  gasLocked : Nat
  providedGas : Nat
  successCallback : String
  deriving DecidableEq, Repr

/-- A batch of async calls sharing an identifier (arwen `AsyncCallGroup`). -/
structure AsyncCallGroup where
  callback : String
  identifier : String
  asyncCalls : List AsyncCall
  deriving DecidableEq, Repr

/-- The root aggregate of the pending async calls (arwen `AsyncContext`). -/
structure AsyncContext where
  asyncCallGroups : List AsyncCallGroup
  deriving DecidableEq, Repr

/-- Modelled from the spec: `AsyncCallGroup.IsCompleted` holds iff every
call has status distinct from Pending; the driver queries it only after
pruning completed calls, where it coincides with the group being empty
(arwen container helper, not under src/). -/
def AsyncCallGroup.isCompleted (g : AsyncCallGroup) : Bool :=
  g.asyncCalls.isEmpty

/-- Modelled from the spec: an `AsyncContext` is completed when no groups
remain (arwen container helper, not under src/). -/
def AsyncContext.isCompleted (ctx : AsyncContext) : Bool :=
  ctx.asyncCallGroups.isEmpty

/-- Modelled from the spec: `DeleteCompletedAsyncCalls` removes from the
group every call whose status is no longer Pending (arwen container
helper, not under src/). -/
def AsyncCallGroup.deleteCompletedAsyncCalls (g : AsyncCallGroup) : AsyncCallGroup :=
  { g with asyncCalls := g.asyncCalls.filter (fun c => c.status = AsyncCallStatus.pending) }

/-- Modelled from the spec: `DeleteAsyncCallGroupByID` removes every group
carrying the given identifier (arwen container helper, not under src/). -/
def AsyncContext.deleteAsyncCallGroupByID (ctx : AsyncContext) (id : String) : AsyncContext :=
  { ctx with asyncCallGroups := ctx.asyncCallGroups.filter (fun g => g.identifier ≠ id) }

/-- Modelled from the spec: `UpdateStatus` sets ResolvedOk on return code
Ok (0) and ResolvedFailed otherwise (arwen `AsyncCall` method, not under
src/). -/
def AsyncCall.updateStatus (c : AsyncCall) (returnCode : Nat) : AsyncCall :=
  { c with status := if returnCode = 0 then AsyncCallStatus.resolvedOk
                      else AsyncCallStatus.resolvedFailed }

/-- Modelled from the spec: the reserved group identifier for calls created
via the legacy single-call API (arwen constant, not under src/). -/
def LegacyAsyncCallGroupID : String := "legacy"

/-- Modelled from the spec: the opaque storage-key prefix for persisted
async data (arwen constant, not under src/). -/
def AsyncDataPrefix : List Nat := [97, 115, 121, 110, 99, 67, 97, 108, 108, 115]

/-- Modelled from the spec: `CustomStorageKey` concatenates the prefix with
the key bytes (arwen helper, not under src/). -/
def CustomStorageKey (keyType key : List Nat) : List Nat := keyType ++ key

/-! ## Gas allocator: `setupAsyncCallsGas` -/

/-- The inner accumulation loop of `setupAsyncCallsGas` over the calls of
one group.  Threads `(gasNeeded, zeroCount)`, returns the (possibly
partially) updated call list exactly as the in-place Go mutation leaves
it, and the loop outcome.  `math.AddUint64` overflow is the explicit
`2^64` bound; modelled from the spec, its failure is `notEnoughGas`. -/
def setupGasLoopCalls (gasLeft : Nat) :
    Nat → Nat → List AsyncCall → List AsyncCall × Nat × Nat × Except HostError Unit
  | gasNeeded, zeroCount, [] => ([], gasNeeded, zeroCount, Except.ok ())
  | gasNeeded, zeroCount, c :: rest =>
    if U64 ≤ gasNeeded + c.providedGas then
      (c :: rest, gasNeeded, zeroCount, Except.error HostError.notEnoughGas)
    else if gasLeft < gasNeeded + c.providedGas then
      (c :: rest, gasNeeded + c.providedGas, zeroCount, Except.error HostError.notEnoughGas)
    else if c.providedGas = 0 then
      let (rest', g, z, r) := setupGasLoopCalls gasLeft (gasNeeded + c.providedGas) (zeroCount + 1) rest
      (c :: rest', g, z, r)
    else
      let (rest', g, z, r) := setupGasLoopCalls gasLeft (gasNeeded + c.providedGas) zeroCount rest
      ({ c with gasLimit := c.providedGas } :: rest', g, z, r)

/-- The outer accumulation loop of `setupAsyncCallsGas` over all groups. -/
def setupGasLoopGroups (gasLeft : Nat) :
    Nat → Nat → List AsyncCallGroup → List AsyncCallGroup × Nat × Nat × Except HostError Unit
  | gasNeeded, zeroCount, [] => ([], gasNeeded, zeroCount, Except.ok ())
  | gasNeeded, zeroCount, g :: rest =>
    let (calls', gn, zc, r) := setupGasLoopCalls gasLeft gasNeeded zeroCount g.asyncCalls
    let g' := { g with asyncCalls := calls' }
    match r with
    | Except.error e => (g' :: rest, gn, zc, Except.error e)
    | Except.ok () =>
      let (rest', gn', zc', r') := setupGasLoopGroups gasLeft gn zc rest
      (g' :: rest', gn', zc', r')

/-- Second assignment loop of `setupAsyncCallsGas`: give `gasShare` to
every call whose developer-provided gas is zero. -/
def assignShare (gasShare : Nat) (groups : List AsyncCallGroup) : List AsyncCallGroup :=
  groups.map (fun g =>
    { g with asyncCalls := g.asyncCalls.map (fun c =>
        if c.providedGas = 0 then { c with gasLimit := gasShare } else c) })

/-- Embeds `setupAsyncCallsGas` (execution_async_context.go:343).  Returns the
context exactly as the in-place mutation leaves it, and the outcome. -/
def setupAsyncCallsGas (gasLeft : Nat) (ctx : AsyncContext) :
    AsyncContext × Except HostError Unit :=
  let (groups, gasNeeded, callsWithZeroGas, r) :=
    setupGasLoopGroups gasLeft 0 0 ctx.asyncCallGroups
  match r with
  | Except.error e => (⟨groups⟩, Except.error e)
  | Except.ok () =>
    if callsWithZeroGas = 0 then (⟨groups⟩, Except.ok ())
    else if gasLeft ≤ gasNeeded then (⟨groups⟩, Except.error HostError.notEnoughGas)
    else
      let gasShare := (gasLeft - gasNeeded) / callsWithZeroGas
      (⟨assignShare gasShare groups⟩, Except.ok ())

/-- All calls of a context, flattened in iteration order. -/
def AsyncContext.allCalls (ctx : AsyncContext) : List AsyncCall :=
  (ctx.asyncCallGroups.map AsyncCallGroup.asyncCalls).flatten

/-- Sum of developer-provided gas over a call list. -/
def providedGasSum (calls : List AsyncCall) : Nat :=
  (calls.map AsyncCall.providedGas).sum

/-- Number of zero-provided-gas calls in a call list. -/
def zeroGasCount (calls : List AsyncCall) : Nat :=
  (calls.filter (fun c => c.providedGas = 0)).length

/-! ## Byte helpers -/

/-- Bytes of a string (ASCII code points). -/
def strBytes (s : String) : List Nat :=
  s.data.map Char.toNat

/-- Embeds `big.Int.SetBytes`: big-endian bytes to a natural number. -/
def bigIntSetBytes (bs : List Nat) : Nat :=
  bs.foldl (fun acc b => acc * 256 + b) 0

/-- Structural helper for `bigIntBytes`: the fuel bounds the number of
base-256 digits and always suffices when it is at least the input. -/
def bigIntBytesAux : Nat → Nat → List Nat
  | 0, _ => []
  | fuel + 1, n => if n = 0 then [] else bigIntBytesAux fuel (n / 256) ++ [n % 256]

/-- Embeds `big.Int.Bytes`: minimal big-endian bytes of a natural number (empty
for zero). -/
def bigIntBytes (n : Nat) : List Nat :=
  bigIntBytesAux n n

/-! ## Consumed vmcommon types -/

/-- The fields of `vmcommon.VMOutput` used by this core.  The return code
is a `Nat` with `0 = vmcommon.Ok`. -/
structure VMOutput where
  returnCode : Nat
  returnData : List (List Nat)
  returnMessage : String
  gasRemaining : Nat
  deriving DecidableEq, Repr

/-- Embeds `vmcommon.ContractCallInput` (its `VMInput` inlined). -/
structure ContractCallInput where
  callerAddr : List Nat
  arguments : List (List Nat)
  callValue : Nat
  callType : CallType
  gasPrice : Nat
  gasProvided : Nat
  currentTxHash : List Nat
  originalTxHash : List Nat
  prevTxHash : List Nat
  recipientAddr : List Nat
  function : String
  deriving DecidableEq, Repr

/-- One outbound transfer record appended by `Output().Transfer`. -/
structure TransferRecord where
  destination : List Nat
  sender : List Nat
  gasLimit : Nat
  gasLocked : Nat
  value : Nat
  data : List Nat
  callType : CallType
  deriving DecidableEq, Repr

/-- Modelled from the spec: the stringified return code appended as a
finish frame on callback failure (`vmcommon.ReturnCode.String`, not under
src/). -/
def returnCodeString (c : Nat) : String :=
  if c = 0 then "ok" else "returnCode " ++ toString c

/-- Modelled from the spec: `Output().CreateVMOutputInCaseOfError`
synthesizes a fallback VMOutput from an error (not under src/): nonzero
return code, the error's message, no data, no gas. -/
def createVMOutputInCaseOfError (e : HostError) : VMOutput :=
  { returnCode := 10
    returnData := []
    returnMessage :=
      match e with
      | HostError.notEnoughGas => "not enough gas"
      | HostError.invalidCallData => "invalid call data"
      | HostError.transferFailed => "transfer failed"
      | HostError.nilPointerPanic => "nil pointer"
    gasRemaining := 0 }

/-! ## Host environment and mutable state -/

/-- External collaborators of the async core (spec §6): the call-args
parser, shard oracle, built-in registry, bytecode executor, the runtime's
hashes and gas price, and the gas schedule.  `execOnDest` models
`host.ExecuteOnDestContext`: from a call input and the metering balance it
yields a VMOutput (never nil, per the host API), an optional error, and
the debited balance. -/
structure HostEnv where
  parseData : List Nat → Except Unit (String × List (List Nat))
  shardOf : List Nat → Nat
  scAddress : List Nat
  isBuiltinFunctionName : String → Bool
  execOnDest : ContractCallInput → Nat → VMOutput × Option HostError × Nat
  transferErr : Option HostError
  gasPrice : Nat
  currentTxHash : List Nat
  originalTxHash : List Nat
  prevTxHash : List Nat
  asyncCallStep : Nat
  dataCopyPerByte : Nat

/-- The mutable host surfaces this core touches: metering balance,
outbound transfers, storage writes performed by this code, finish frames,
return message, the enclosing input's gas, the failure flag, and a log of
every call input sent to the bytecode executor. -/
structure HostState where
  gasLeft : Nat
  transfers : List TransferRecord
  storageWrites : List (List Nat × List Nat)
  finishData : List (List Nat)
  returnMessage : String
  vmInputGasProvided : Nat
  executionFailed : Bool
  execLog : List ContractCallInput
  deriving DecidableEq, Repr

/-- Run the bytecode executor on a call input, logging the input and
updating the metering balance. -/
def runExecOnDest (env : HostEnv) (s : HostState) (input : ContractCallInput) :
    VMOutput × Option HostError × HostState :=
  let (out, err, gas') := env.execOnDest input s.gasLeft
  (out, err, { s with gasLeft := gas', execLog := s.execLog ++ [input] })

/-! ## Classifier and input builders -/

/-- Embeds `determineExecutionMode` (execution_async_context.go:172).  The Go
version returns `(AsyncUnknown, err)` on a parse failure; the error is
modelled as `invalidCallData`. -/
def determineExecutionMode (env : HostEnv) (destination data : List Nat) :
    Except HostError AsyncCallExecutionMode :=
  match env.parseData data with
  | Except.error _ => Except.error HostError.invalidCallData
  | Except.ok (functionName, _) =>
    if env.shardOf env.scAddress = env.shardOf destination then
      Except.ok AsyncCallExecutionMode.syncExecution
    else if env.isBuiltinFunctionName functionName then
      Except.ok AsyncCallExecutionMode.asyncBuiltinFunc
    else
      Except.ok AsyncCallExecutionMode.asyncUnknown

/-- Embeds `determineAsyncCallExecutionMode` (execution_async_context.go:168). -/
def determineAsyncCallExecutionMode (env : HostEnv) (call : AsyncCall) :
    Except HostError AsyncCallExecutionMode :=
  determineExecutionMode env call.destination call.data

/-- Embeds `createSyncCallInput` (execution_async_context.go:226). -/
def createSyncCallInput (env : HostEnv) (call : AsyncCall) :
    Except HostError ContractCallInput :=
  match env.parseData call.data with
  | Except.error _ => Except.error HostError.invalidCallData
  | Except.ok (function, arguments) =>
    let gasLimit := call.gasLimit
    let gasToUse := env.asyncCallStep
    if gasLimit ≤ gasToUse then Except.error HostError.notEnoughGas
    else
      Except.ok
        { callerAddr := env.scAddress
          arguments := arguments
          callValue := bigIntSetBytes call.valueBytes
          callType := CallType.asynchronousCall
          gasPrice := env.gasPrice
          gasProvided := gasLimit - gasToUse
          currentTxHash := env.currentTxHash
          originalTxHash := env.originalTxHash
          prevTxHash := env.prevTxHash
          recipientAddr := call.destination
          function := function }

/-- Embeds `computeDataLengthFromArguments` (execution_async_context.go:434). -/
def computeDataLengthFromArguments (function : String) (arguments : List (List Nat)) : Nat :=
  function.length + arguments.length + (arguments.map List.length).sum

/-- Embeds `createSyncCallbackInput` (execution_async_context.go:261).  The two
uint64 additions and the multiplication wrap modulo `2^64`, as in Go. -/
def createSyncCallbackInput (env : HostEnv) (call : AsyncCall)
    (vmOutput : VMOutput) (destinationErr : Option HostError) :
    Except HostError ContractCallInput :=
  let arguments :=
    bigIntBytes vmOutput.returnCode ::
      (if destinationErr.isNone then vmOutput.returnData
       else [strBytes vmOutput.returnMessage])
  let callbackFunction := call.successCallback
  let gasLimit := (vmOutput.gasRemaining + call.gasLocked) % U64
  let dataLength := computeDataLengthFromArguments callbackFunction arguments
  let gasToUse := (env.asyncCallStep + env.dataCopyPerByte * dataLength) % U64
  if gasLimit ≤ gasToUse then Except.error HostError.notEnoughGas
  else
    Except.ok
      { callerAddr := call.destination
        arguments := arguments
        callValue := 0
        callType := CallType.asynchronousCallBack
        gasPrice := env.gasPrice
        gasProvided := gasLimit - gasToUse
        currentTxHash := env.currentTxHash
        originalTxHash := env.originalTxHash
        prevTxHash := env.prevTxHash
        recipientAddr := env.scAddress
        function := callbackFunction }

/-! ## Per-call executor -/

/-- Embeds `executeSyncCall` (execution_async_context.go:198).  A `none` first
component models the nil `*vmcommon.VMOutput` Go returns when building
the call input fails. -/
def executeSyncCall (env : HostEnv) (s : HostState) (call : AsyncCall) :
    Option VMOutput × Option HostError × HostState :=
  match createSyncCallInput env call with
  | Except.error e => (none, some e, s)
  | Except.ok input =>
    let (out, err, s') := runExecOnDest env s input
    (some out, err, s')

/-- Embeds `executeSyncCallback` (execution_async_context.go:207). -/
def executeSyncCallback (env : HostEnv) (s : HostState) (call : AsyncCall)
    (vmOutput : VMOutput) (err : Option HostError) :
    Option VMOutput × Option HostError × HostState :=
  match createSyncCallbackInput env call vmOutput err with
  | Except.error e => (none, some e, s)
  | Except.ok input =>
    let (out, e, s') := runExecOnDest env s input
    (some out, e, s')

/-- Embeds `finishSyncExecution` (execution_async_context.go:389). -/
def finishSyncExecution (env : HostEnv) (s : HostState)
    (vmOutput : Option VMOutput) (err : Option HostError) : HostState :=
  match err with
  | none => s
  | some e =>
    let s1 := { s with vmInputGasProvided := 0 }
    let out := match vmOutput with
      | some o => o
      | none => createVMOutputInCaseOfError e
    let s2 := { s1 with returnMessage := out.returnMessage }
    { s2 with finishData :=
        s2.finishData ++ [strBytes (returnCodeString out.returnCode), env.currentTxHash] }

/-- Embeds `sendAsyncCallCrossShard` (execution_async_context.go:315). -/
def sendAsyncCallCrossShard (env : HostEnv) (s : HostState) (call : AsyncCall) :
    HostState × Except HostError Unit :=
  match env.transferErr with
  | none =>
    ({ s with transfers := s.transfers ++
        [{ destination := call.destination
           sender := env.scAddress
           gasLimit := call.gasLimit
           gasLocked := call.gasLocked
           value := bigIntSetBytes call.valueBytes
           data := call.data
           callType := CallType.asynchronousCall }] },
     Except.ok ())
  | some e =>
    ({ s with gasLeft := 0, executionFailed := true }, Except.error e)

/-- Result of running one call through the per-call executor: the updated
host state, the call as the in-place mutation leaves it, and the outcome. -/
structure CallResult where
  state : HostState
  call : AsyncCall
  result : Except HostError Unit
  deriving Repr

/-- Embeds `executeAsyncCall` (execution_async_context.go:109).  On the
synchronous path the Go code dereferences the VMOutput returned by
`executeSyncCall` without a nil check; a nil there is modelled as
`nilPointerPanic`. -/
def executeAsyncCall (env : HostEnv) (s : HostState) (call : AsyncCall)
    (syncExecutionOnly : Bool) : CallResult :=
  match determineAsyncCallExecutionMode env call with
  | Except.error e => ⟨s, call, Except.error e⟩
  | Except.ok execMode =>
    if execMode = AsyncCallExecutionMode.syncExecution then
      let (vmOutput?, err, s1) := executeSyncCall env s call
      match vmOutput? with
      | none => ⟨s1, call, Except.error HostError.nilPointerPanic⟩
      | some vmOutput =>
        let call1 := call.updateStatus vmOutput.returnCode
        let (cbOut, cbErr, s2) := executeSyncCallback env s1 call1 vmOutput err
        let s3 := finishSyncExecution env s2 cbOut cbErr
        ⟨s3, call1, Except.ok ()⟩
    else if syncExecutionOnly then ⟨s, call, Except.ok ()⟩
    else if execMode = AsyncCallExecutionMode.asyncBuiltinFunc then
      let (vmOutput?, err, s1) := executeSyncCall env s call
      match err with
      | some e => ⟨s1, call, Except.error e⟩
      | none =>
        match vmOutput? with
        | none => ⟨s1, call, Except.error HostError.nilPointerPanic⟩
        | some vmOutput =>
          if vmOutput.returnCode ≠ 0 then
            let call1 := call.updateStatus vmOutput.returnCode
            let (cbOut, cbErr, s2) := executeSyncCallback env s1 call1 vmOutput none
            let s3 := finishSyncExecution env s2 cbOut cbErr
            ⟨s3, call1, Except.ok ()⟩
          else ⟨s1, call, Except.ok ()⟩
    else
      let (s', r) := sendAsyncCallCrossShard env s call
      ⟨s', call, r⟩

/-! ## Group executor -/

/-- Embeds `executeAsyncCallGroupCallback` (execution_async_context.go:221): a
reserved no-op returning success. -/
def executeAsyncCallGroupCallback (_env : HostEnv) (s : HostState)
    (_group : AsyncCallGroup) : HostState × Except HostError Unit :=
  (s, Except.ok ())

/-- The call loop of `executeAsyncCallGroup`: run each call in order,
aborting on the first error; returns the call list as the in-place
mutation leaves it. -/
def executeCallsLoop (env : HostEnv) (syncExecutionOnly : Bool) :
    HostState → List AsyncCall → HostState × List AsyncCall × Except HostError Unit
  | s, [] => (s, [], Except.ok ())
  | s, c :: rest =>
    let r := executeAsyncCall env s c syncExecutionOnly
    match r.result with
    | Except.error e => (r.state, r.call :: rest, Except.error e)
    | Except.ok () =>
      let (s', rest', res) := executeCallsLoop env syncExecutionOnly r.state rest
      (s', r.call :: rest', res)

/-- Result of the group executor: updated state, updated group, whether
the group-level callback hook was invoked, and the outcome. -/
structure GroupResult where
  state : HostState
  group : AsyncCallGroup
  groupCallbackInvoked : Bool
  result : Except HostError Unit
  deriving Repr

/-- Embeds `executeAsyncCallGroup` (execution_async_context.go:85): run every
call, prune completed calls, and if the group is then completed invoke
the group-level callback hook. -/
def executeAsyncCallGroup (env : HostEnv) (s : HostState)
    (group : AsyncCallGroup) (syncExecutionOnly : Bool) : GroupResult :=
  let (s1, calls', r) := executeCallsLoop env syncExecutionOnly s group.asyncCalls
  let g1 : AsyncCallGroup := { group with asyncCalls := calls' }
  match r with
  | Except.error e => ⟨s1, g1, false, Except.error e⟩
  | Except.ok () =>
    let g2 := g1.deleteCompletedAsyncCalls
    if g2.isCompleted then
      let (s2, rc) := executeAsyncCallGroupCallback env s1 g2
      ⟨s2, g2, true, rc⟩
    else ⟨s1, g2, false, Except.ok ()⟩

/-! ## Context driver and persistence -/

/-- Modelled from the spec: deterministic serialization of the residual
context, standing for `encoding/json.Marshal` (external encoder). -/
def serializeAsyncContext (ctx : AsyncContext) : List Nat :=
  strBytes (toString (repr ctx))

/-- Embeds `saveAsyncContext` (execution_async_context.go:412).  The storage
collaborator's `SetStorage` is modelled as always succeeding. -/
def saveAsyncContext (env : HostEnv) (s : HostState) (ctx : AsyncContext) :
    HostState × Except HostError Unit :=
  if ctx.asyncCallGroups.isEmpty then (s, Except.ok ())
  else
    let key := CustomStorageKey AsyncDataPrefix env.prevTxHash
    let data := serializeAsyncContext ctx
    ({ s with storageWrites := s.storageWrites ++ [(key, data)] }, Except.ok ())

/-- First sweep of the driver (execution_async_context.go:42): run each
group in sync-only mode, deleting groups that complete.  Deletion during
iteration is modelled from the spec as keeping non-completed groups. -/
def sweepSyncGroups (env : HostEnv) :
    HostState → List AsyncCallGroup → HostState × List AsyncCallGroup × Except HostError Unit
  | s, [] => (s, [], Except.ok ())
  | s, g :: rest =>
    let r := executeAsyncCallGroup env s g true
    match r.result with
    | Except.error e => (r.state, r.group :: rest, Except.error e)
    | Except.ok () =>
      let (s', rest', res) := sweepSyncGroups env r.state rest
      if r.group.isCompleted then (s', rest', res)
      else (s', r.group :: rest', res)

/-- Second sweep of the driver (execution_async_context.go:65): run each
group allowing cross-shard emission; groups are updated in place and not
deleted here. -/
def sweepAsyncGroups (env : HostEnv) :
    HostState → List AsyncCallGroup → HostState × List AsyncCallGroup × Except HostError Unit
  | s, [] => (s, [], Except.ok ())
  | s, g :: rest =>
    let r := executeAsyncCallGroup env s g false
    match r.result with
    | Except.error e => (r.state, r.group :: rest, Except.error e)
    | Except.ok () =>
      let (s', rest', res) := sweepAsyncGroups env r.state rest
      (s', r.group :: rest', res)

/-- Result of the context driver: final state, the context as the
in-place mutation leaves it, and the outcome. -/
structure DriverResult where
  state : HostState
  ctx : AsyncContext
  result : Except HostError Unit
  deriving Repr

/-- Embeds `executeCurrentAsyncContext` (execution_async_context.go:27): the
two-phase scan with gas allocation before each sweep, legacy-group
deletion, and persistence of the residual context. -/
def executeCurrentAsyncContext (env : HostEnv) (s : HostState) (ctx : AsyncContext) :
    DriverResult :=
  if ctx.isCompleted then ⟨s, ctx, Except.ok ()⟩
  else
    let (ctx1, r1) := setupAsyncCallsGas s.gasLeft ctx
    match r1 with
    | Except.error e => ⟨s, ctx1, Except.error e⟩
    | Except.ok () =>
      let (s1, groups1, r2) := sweepSyncGroups env s ctx1.asyncCallGroups
      match r2 with
      | Except.error e => ⟨s1, ⟨groups1⟩, Except.error e⟩
      | Except.ok () =>
        let (ctx2, r3) := setupAsyncCallsGas s1.gasLeft ⟨groups1⟩
        match r3 with
        | Except.error e => ⟨s1, ctx2, Except.error e⟩
        | Except.ok () =>
          let (s2, groups2, r4) := sweepAsyncGroups env s1 ctx2.asyncCallGroups
          match r4 with
          | Except.error e => ⟨s2, ⟨groups2⟩, Except.error e⟩
          | Except.ok () =>
            let ctx3 := AsyncContext.deleteAsyncCallGroupByID ⟨groups2⟩ LegacyAsyncCallGroupID
            let (s3, r5) := saveAsyncContext env s2 ctx3
            ⟨s3, ctx3, r5⟩

/-- Flat-encoded data of the form `callback@arg1@arg2` (the form named by
the comment in `computeDataLengthFromArguments`); `64` is the code of the
`@` separator. -/
def flatEncoding (function : String) (arguments : List (List Nat)) : List Nat :=
  strBytes function ++ (arguments.map (fun a => 64 :: a)).flatten

/-! ## Specification-side definitions (for comparison with the source) -/

/-- The per-call gas assignment applied by the source's first loop to a
call with nonzero developer-provided gas, and the identity otherwise. -/
def assignProvided (c : AsyncCall) : AsyncCall :=
  if c.providedGas = 0 then c else { c with gasLimit := c.providedGas }

/-- Spec-side (claim C1 wording) description of the allocator's successful
assignment: GasLimit := ProvidedGas for nonzero calls; when `useShare`
holds, GasLimit := `share` for zero calls. -/
def specGasAssignment (share : Nat) (useShare : Prop) [Decidable useShare]
    (ctx : AsyncContext) : AsyncContext :=
  ⟨ctx.asyncCallGroups.map (fun g =>
    { g with asyncCalls := g.asyncCalls.map (fun c =>
        if c.providedGas ≠ 0 then { c with gasLimit := c.providedGas }
        else if useShare then { c with gasLimit := share } else c) })⟩

/-! ## Concrete fixtures used by counterexamples and witnesses -/

/-- A VMOutput of a successful execution with no return data and no
remaining gas. -/
def sampleVMOut : VMOutput :=
  { returnCode := 0, returnData := [], returnMessage := "", gasRemaining := 0 }

/-- A concrete environment: the parser accepts any nonempty data as
function `fn` with no arguments; the shard of an address is its first
byte; the current contract lives at address `[0]` (shard 0); `fn` is a
registered built-in; execution always succeeds returning `sampleVMOut`. -/
def sampleEnv : HostEnv := {
  parseData := fun d => if d.isEmpty then Except.error () else Except.ok ("fn", [])
  shardOf := fun a => a.headD 0
  scAddress := [0]
  isBuiltinFunctionName := fun f => f = "fn"
  execOnDest := fun _ g => (sampleVMOut, none, g)
  transferErr := none
  gasPrice := 1
  currentTxHash := [7, 7]
  originalTxHash := [8, 8]
  prevTxHash := [9, 9]
  asyncCallStep := 10
  dataCopyPerByte := 1
}

/-- A failing VMOutput produced by the built-in in the C6 scenario. -/
def builtinFailOut : VMOutput :=
  { returnCode := 4, returnData := [[1], [2]], returnMessage := "boom", gasRemaining := 500 }

/-- Environment where the forward execution of an asynchronous call fails
with return code 4 while callbacks succeed. -/
def builtinEnv : HostEnv := { sampleEnv with
  execOnDest := fun i g =>
    if i.callType = CallType.asynchronousCall then (builtinFailOut, none, g)
    else (sampleVMOut, none, g) }

/-- Environment in which no function name is a registered built-in. -/
def nbEnv : HostEnv := { sampleEnv with isBuiltinFunctionName := fun _ => false }

/-- Initial host state with a balance of 1000 gas and empty logs. -/
def sampleState : HostState := {
  gasLeft := 1000
  transfers := []
  storageWrites := []
  finishData := []
  returnMessage := ""
  vmInputGasProvided := 1000
  executionFailed := false
  execLog := []
}

/-- A same-shard pending call with parseable data and no gas assigned. -/
def sampleCall : AsyncCall := {
  status := AsyncCallStatus.pending
  destination := [0]
  data := [1]
  valueBytes := []
  gasLimit := 0
  gasLocked := 0
  providedGas := 0
  successCallback := "cb"
}

/-- A remote-shard call (destination in shard 1) with 100 gas assigned. -/
def remoteCall : AsyncCall := { sampleCall with destination := [1], gasLimit := 100 }

/-- A same-shard call whose assigned gas equals the async call step fee. -/
def stepGasCall : AsyncCall := { sampleCall with gasLimit := 10 }

/-- A same-shard call with enough gas for the forward call but whose
forward result leaves nothing for the callback fee. -/
def leanGasCall : AsyncCall := { sampleCall with gasLimit := 100 }

/-- A call whose data the parser rejects. -/
def badDataCall : AsyncCall := { sampleCall with data := [] }

/-- The forward-call input produced for `remoteCall` under `builtinEnv`. -/
def c6ForwardInput : ContractCallInput := {
  callerAddr := [0]
  arguments := []
  callValue := 0
  callType := CallType.asynchronousCall
  gasPrice := 1
  gasProvided := 90
  currentTxHash := [7, 7]
  originalTxHash := [8, 8]
  prevTxHash := [9, 9]
  recipientAddr := [1]
  function := "fn"
}

/-- Host state after the forward execution of `remoteCall` under
`builtinEnv`. -/
def c6MidState : HostState := { sampleState with execLog := [c6ForwardInput] }

/-- The callback input synthesized for the failing built-in scenario. -/
def c6CallbackInput : ContractCallInput := {
  callerAddr := [1]
  arguments := [[4], [1], [2]]
  callValue := 0
  callType := CallType.asynchronousCallBack
  gasPrice := 1
  gasProvided := 482
  currentTxHash := [7, 7]
  originalTxHash := [8, 8]
  prevTxHash := [9, 9]
  recipientAddr := [0]
  function := "cb"
}

/-- A forward VMOutput with 100 gas remaining, used by the C10 witness. -/
def feeWitnessOut : VMOutput :=
  { returnCode := 0, returnData := [], returnMessage := "", gasRemaining := 100 }

/-- The callback input built from `feeWitnessOut` for `sampleCall`. -/
def feeWitnessInput : ContractCallInput := {
  callerAddr := [0]
  arguments := [[]]
  callValue := 0
  callType := CallType.asynchronousCallBack
  gasPrice := 1
  gasProvided := 87
  currentTxHash := [7, 7]
  originalTxHash := [8, 8]
  prevTxHash := [9, 9]
  recipientAddr := [0]
  function := "cb"
}

/-- Context for the C8 counterexample: a 5-gas call followed by a call
demanding more than the whole balance. -/
def overGasCtx : AsyncContext :=
  ⟨[⟨"cb", "g1", [{ sampleCall with providedGas := 5 },
                  { sampleCall with providedGas := 200 }]⟩]⟩

/-- Context holding one remote non-built-in call: it survives both sweeps
and is persisted. -/
def remoteCtx : AsyncContext := ⟨[⟨"cb", "g1", [{ remoteCall with providedGas := 50 }]⟩]⟩

/-- The forward-call input produced for `leanGasCall` under `sampleEnv`. -/
def c5ForwardInput : ContractCallInput := {
  callerAddr := [0]
  arguments := []
  callValue := 0
  callType := CallType.asynchronousCall
  gasPrice := 1
  gasProvided := 90
  currentTxHash := [7, 7]
  originalTxHash := [8, 8]
  prevTxHash := [9, 9]
  recipientAddr := [0]
  function := "fn"
}

/-- Host state after the forward execution of `leanGasCall`. -/
def c5MidState : HostState := { sampleState with execLog := [c5ForwardInput] }

/-- Context with one 5-gas call and one zero-gas call, used to witness the
allocator theorem. -/
def mixedGasCtx : AsyncContext :=
  ⟨[⟨"cb", "g1", [{ sampleCall with providedGas := 5 }, sampleCall]⟩]⟩

/-- Context whose only group carries the legacy identifier and one remote
non-built-in call. -/
def legacyCtx : AsyncContext :=
  ⟨[⟨"cb", LegacyAsyncCallGroupID, [{ remoteCall with providedGas := 50 }]⟩]⟩

/-- An empty group used by the group-callback counterexample. -/
def emptyGroup : AsyncCallGroup := ⟨"cb", "g1", []⟩

/-! ## Helper lemmas on gas sums and counts -/

theorem providedGasSum_nil : providedGasSum [] = 0 := rfl

theorem providedGasSum_cons (c : AsyncCall) (l : List AsyncCall) :
    providedGasSum (c :: l) = c.providedGas + providedGasSum l := by
  simp [providedGasSum]

theorem providedGasSum_append (a b : List AsyncCall) :
    providedGasSum (a ++ b) = providedGasSum a + providedGasSum b := by
  simp [providedGasSum]

theorem zeroGasCount_nil : zeroGasCount [] = 0 := rfl

theorem zeroGasCount_cons (c : AsyncCall) (l : List AsyncCall) :
    zeroGasCount (c :: l) =
      (if c.providedGas = 0 then 1 else 0) + zeroGasCount l := by
  by_cases h : c.providedGas = 0
  · simp [zeroGasCount, List.filter, h]; omega
  · simp [zeroGasCount, List.filter, h]

theorem zeroGasCount_append (a b : List AsyncCall) :
    zeroGasCount (a ++ b) = zeroGasCount a + zeroGasCount b := by
  simp [zeroGasCount]

theorem providedGasSum_take_le (l : List AsyncCall) (k : Nat) :
    providedGasSum (l.take k) ≤ providedGasSum l := by
  conv_rhs => rw [← List.take_append_drop k l]
  rw [providedGasSum_append]
  omega

/-! ## Allocator loop lemmas -/

theorem setupGasLoopCalls_only_notEnoughGas (gasLeft : Nat) (calls : List AsyncCall)
    (gasNeeded zeroCount : Nat) :
    (setupGasLoopCalls gasLeft gasNeeded zeroCount calls).2.2.2 = Except.ok () ∨
    (setupGasLoopCalls gasLeft gasNeeded zeroCount calls).2.2.2 =
      Except.error HostError.notEnoughGas := by
  induction calls generalizing gasNeeded zeroCount with
  | nil => left; rfl
  | cons c rest ih =>
    simp only [setupGasLoopCalls]
    by_cases h1 : U64 ≤ gasNeeded + c.providedGas
    · rw [if_pos h1]; right; rfl
    · rw [if_neg h1]
      by_cases h2 : gasLeft < gasNeeded + c.providedGas
      · rw [if_pos h2]; right; rfl
      · rw [if_neg h2]
        by_cases h3 : c.providedGas = 0
        · rw [if_pos h3]
          exact ih (gasNeeded + c.providedGas) (zeroCount + 1)
        · rw [if_neg h3]
          exact ih (gasNeeded + c.providedGas) zeroCount

theorem setupGasLoopCalls_ok_iff (gasLeft : Nat) (hg : gasLeft < U64)
    (calls : List AsyncCall) (gasNeeded zeroCount : Nat) (hn : gasNeeded ≤ gasLeft) :
    (setupGasLoopCalls gasLeft gasNeeded zeroCount calls).2.2.2 = Except.ok () ↔
      gasNeeded + providedGasSum calls ≤ gasLeft := by
  induction calls generalizing gasNeeded zeroCount with
  | nil => simp [setupGasLoopCalls, providedGasSum_nil]; omega
  | cons c rest ih =>
    rw [providedGasSum_cons]
    simp only [setupGasLoopCalls]
    by_cases h1 : U64 ≤ gasNeeded + c.providedGas
    · rw [if_pos h1]
      constructor
      · intro h; exact absurd h (by simp)
      · intro h; exact absurd hg (by omega)
    · rw [if_neg h1]
      by_cases h2 : gasLeft < gasNeeded + c.providedGas
      · rw [if_pos h2]
        constructor
        · intro h; exact absurd h (by simp)
        · intro h; exact absurd h2 (by omega)
      · rw [if_neg h2]
        by_cases h3 : c.providedGas = 0
        · rw [if_pos h3]
          have hiff := ih (gasNeeded + c.providedGas) (zeroCount + 1) (by omega)
          show (setupGasLoopCalls gasLeft (gasNeeded + c.providedGas)
              (zeroCount + 1) rest).2.2.2 = Except.ok () ↔
            gasNeeded + (c.providedGas + providedGasSum rest) ≤ gasLeft
          rw [hiff]
          omega
        · rw [if_neg h3]
          have hiff := ih (gasNeeded + c.providedGas) zeroCount (by omega)
          show (setupGasLoopCalls gasLeft (gasNeeded + c.providedGas)
              zeroCount rest).2.2.2 = Except.ok () ↔
            gasNeeded + (c.providedGas + providedGasSum rest) ≤ gasLeft
          rw [hiff]
          omega

theorem setupGasLoopCalls_ok_parts (gasLeft : Nat) (calls : List AsyncCall)
    (gasNeeded zeroCount : Nat)
    (h : (setupGasLoopCalls gasLeft gasNeeded zeroCount calls).2.2.2 = Except.ok ()) :
    (setupGasLoopCalls gasLeft gasNeeded zeroCount calls).1 = calls.map assignProvided ∧
    (setupGasLoopCalls gasLeft gasNeeded zeroCount calls).2.1
        = gasNeeded + providedGasSum calls ∧
    (setupGasLoopCalls gasLeft gasNeeded zeroCount calls).2.2.1
        = zeroCount + zeroGasCount calls := by
  induction calls generalizing gasNeeded zeroCount with
  | nil =>
    refine ⟨rfl, ?_, ?_⟩
    · simp [setupGasLoopCalls, providedGasSum_nil]
    · simp [setupGasLoopCalls, zeroGasCount_nil]
  | cons c rest ih =>
    simp only [setupGasLoopCalls] at h ⊢
    by_cases h1 : U64 ≤ gasNeeded + c.providedGas
    · rw [if_pos h1] at h; exact absurd h (by simp)
    · rw [if_neg h1] at h ⊢
      by_cases h2 : gasLeft < gasNeeded + c.providedGas
      · rw [if_pos h2] at h; exact absurd h (by simp)
      · rw [if_neg h2] at h ⊢
        by_cases h3 : c.providedGas = 0
        · rw [if_pos h3] at h ⊢
          obtain ⟨e1, e2, e3⟩ := ih (gasNeeded + c.providedGas) (zeroCount + 1) h
          refine ⟨?_, ?_, ?_⟩
          · show c :: (setupGasLoopCalls gasLeft (gasNeeded + c.providedGas)
                (zeroCount + 1) rest).1 = (c :: rest).map assignProvided
            rw [e1]; simp [assignProvided, h3]
          · show (setupGasLoopCalls gasLeft (gasNeeded + c.providedGas)
                (zeroCount + 1) rest).2.1 = gasNeeded + providedGasSum (c :: rest)
            rw [e2, providedGasSum_cons]; omega
          · show (setupGasLoopCalls gasLeft (gasNeeded + c.providedGas)
                (zeroCount + 1) rest).2.2.1 = zeroCount + zeroGasCount (c :: rest)
            rw [e3, zeroGasCount_cons, if_pos h3]; omega
        · rw [if_neg h3] at h ⊢
          obtain ⟨e1, e2, e3⟩ := ih (gasNeeded + c.providedGas) zeroCount h
          refine ⟨?_, ?_, ?_⟩
          · show { c with gasLimit := c.providedGas } ::
                (setupGasLoopCalls gasLeft (gasNeeded + c.providedGas)
                  zeroCount rest).1 = (c :: rest).map assignProvided
            rw [e1]; simp [assignProvided, h3]
          · show (setupGasLoopCalls gasLeft (gasNeeded + c.providedGas)
                zeroCount rest).2.1 = gasNeeded + providedGasSum (c :: rest)
            rw [e2, providedGasSum_cons]; omega
          · show (setupGasLoopCalls gasLeft (gasNeeded + c.providedGas)
                zeroCount rest).2.2.1 = zeroCount + zeroGasCount (c :: rest)
            rw [e3, zeroGasCount_cons, if_neg h3]; omega

theorem setupGasLoopGroups_only_notEnoughGas (gasLeft : Nat) (groups : List AsyncCallGroup)
    (gasNeeded zeroCount : Nat) :
    (setupGasLoopGroups gasLeft gasNeeded zeroCount groups).2.2.2 = Except.ok () ∨
    (setupGasLoopGroups gasLeft gasNeeded zeroCount groups).2.2.2 =
      Except.error HostError.notEnoughGas := by
  induction groups generalizing gasNeeded zeroCount with
  | nil => left; rfl
  | cons g rest ih =>
    simp only [setupGasLoopGroups]
    rcases hc : setupGasLoopCalls gasLeft gasNeeded zeroCount g.asyncCalls
      with ⟨calls', gn, zc, r⟩
    have honly := setupGasLoopCalls_only_notEnoughGas gasLeft g.asyncCalls gasNeeded zeroCount
    rw [hc] at honly
    cases r with
    | error e =>
      right
      have : e = HostError.notEnoughGas := by
        rcases honly with h | h
        · exact absurd h (by simp)
        · simpa using h
      simp [this]
    | ok _ =>
      rcases hr : setupGasLoopGroups gasLeft gn zc rest with ⟨rest', gn', zc', r'⟩
      have := ih gn zc
      rw [hr] at this
      simpa [hr] using this

theorem setupGasLoopGroups_ok_iff (gasLeft : Nat) (hg : gasLeft < U64)
    (groups : List AsyncCallGroup) (gasNeeded zeroCount : Nat) (hn : gasNeeded ≤ gasLeft) :
    (setupGasLoopGroups gasLeft gasNeeded zeroCount groups).2.2.2 = Except.ok () ↔
      gasNeeded + providedGasSum (groups.map AsyncCallGroup.asyncCalls).flatten ≤ gasLeft := by
  induction groups generalizing gasNeeded zeroCount with
  | nil => simp [setupGasLoopGroups, providedGasSum_nil]; omega
  | cons g rest ih =>
    simp only [setupGasLoopGroups]
    rw [List.map_cons, List.flatten_cons, providedGasSum_append]
    rcases hc : setupGasLoopCalls gasLeft gasNeeded zeroCount g.asyncCalls
      with ⟨calls', gn, zc, r⟩
    have hciff := setupGasLoopCalls_ok_iff gasLeft hg g.asyncCalls gasNeeded zeroCount hn
    rw [hc] at hciff
    cases r with
    | error e =>
      simp only at hciff
      constructor
      · intro h; exact absurd h (by simp)
      · intro h
        have : (Except.error e : Except HostError Unit) = Except.ok () :=
          hciff.mpr (by omega)
        exact absurd this (by simp)
    | ok _ =>
      simp only at hciff
      have hsum : gasNeeded + providedGasSum g.asyncCalls ≤ gasLeft := hciff.mp trivial
      have hparts := setupGasLoopCalls_ok_parts gasLeft g.asyncCalls gasNeeded zeroCount
        (by rw [hc])
      rw [hc] at hparts
      obtain ⟨-, e2, -⟩ := hparts
      simp only at e2
      rcases hr : setupGasLoopGroups gasLeft gn zc rest with ⟨rest', gn', zc', r'⟩
      have hriff := ih gn zc (by omega)
      rw [hr] at hriff
      simp only at hriff
      simp only [hr]
      show r' = Except.ok () ↔ _
      rw [hriff, e2]
      omega

theorem setupGasLoopGroups_ok_parts (gasLeft : Nat) (groups : List AsyncCallGroup)
    (gasNeeded zeroCount : Nat)
    (h : (setupGasLoopGroups gasLeft gasNeeded zeroCount groups).2.2.2 = Except.ok ()) :
    (setupGasLoopGroups gasLeft gasNeeded zeroCount groups).1 =
      groups.map (fun g => { g with asyncCalls := g.asyncCalls.map assignProvided }) ∧
    (setupGasLoopGroups gasLeft gasNeeded zeroCount groups).2.1
        = gasNeeded + providedGasSum (groups.map AsyncCallGroup.asyncCalls).flatten ∧
    (setupGasLoopGroups gasLeft gasNeeded zeroCount groups).2.2.1
        = zeroCount + zeroGasCount (groups.map AsyncCallGroup.asyncCalls).flatten := by
  induction groups generalizing gasNeeded zeroCount with
  | nil =>
    refine ⟨rfl, ?_, ?_⟩
    · simp [setupGasLoopGroups, providedGasSum_nil]
    · simp [setupGasLoopGroups, zeroGasCount_nil]
  | cons g rest ih =>
    simp only [List.map_cons, List.flatten_cons, providedGasSum_append, zeroGasCount_append]
    simp only [setupGasLoopGroups] at h ⊢
    rcases hc : setupGasLoopCalls gasLeft gasNeeded zeroCount g.asyncCalls
      with ⟨calls', gn, zc, r⟩
    cases r with
    | error e => simp [hc] at h
    | ok _ =>
      have hcparts := setupGasLoopCalls_ok_parts gasLeft g.asyncCalls gasNeeded zeroCount
        (by rw [hc])
      rw [hc] at hcparts
      obtain ⟨e1, e2, e3⟩ := hcparts
      simp only at e1 e2 e3
      rcases hr : setupGasLoopGroups gasLeft gn zc rest with ⟨rest', gn', zc', r'⟩
      simp only [hc, hr] at h ⊢
      obtain ⟨f1, f2, f3⟩ := by
        have := ih gn zc (by rw [hr]; exact h)
        rw [hr] at this
        exact this
      simp only at f1 f2 f3
      refine ⟨?_, ?_, ?_⟩
      · rw [f1, e1]
      · rw [f2, e2]; omega
      · rw [f3, e3]; omega

theorem specGasAssignment_not (share : Nat) (P : Prop) [Decidable P] (hP : ¬ P)
    (ctx : AsyncContext) :
    specGasAssignment share P ctx =
      ⟨ctx.asyncCallGroups.map
        (fun g => { g with asyncCalls := g.asyncCalls.map assignProvided })⟩ := by
  simp only [specGasAssignment, AsyncContext.mk.injEq]
  apply List.map_congr_left
  intro g _
  congr 1
  apply List.map_congr_left
  intro c _
  by_cases hc : c.providedGas = 0 <;> simp [assignProvided, hc, hP]

theorem specGasAssignment_yes (share : Nat) (P : Prop) [Decidable P] (hP : P)
    (ctx : AsyncContext) :
    specGasAssignment share P ctx =
      ⟨assignShare share
        (ctx.asyncCallGroups.map
          (fun g => { g with asyncCalls := g.asyncCalls.map assignProvided }))⟩ := by
  simp only [specGasAssignment, assignShare, List.map_map, AsyncContext.mk.injEq]
  apply List.map_congr_left
  intro g _
  simp only [Function.comp]
  congr 1
  simp only [List.map_map]
  apply List.map_congr_left
  intro c _
  by_cases hc : c.providedGas = 0 <;> simp [assignProvided, hc, hP, Function.comp]

/-- C1: for every AsyncContext and metering balance, `setupAsyncCallsGas`
assigns GasLimit = ProvidedGas to every call with nonzero ProvidedGas and,
when zero-gas calls exist, GasLimit = (gasLeft − gasNeeded) / zeroCount to
every zero-gas call; it fails with NotEnoughGas exactly when the running
accumulation of ProvidedGas exceeds gasLeft at some step, or the
accumulation overflows uint64, or zero-gas calls exist and
gasLeft ≤ gasNeeded. -/
theorem setupAsyncCallsGas_correct (gasLeft : Nat) (ctx : AsyncContext)
    (hg : gasLeft < U64) :
    ((setupAsyncCallsGas gasLeft ctx).2 = Except.error HostError.notEnoughGas ↔
      (∃ k, gasLeft < providedGasSum (ctx.allCalls.take k) ∨
            U64 ≤ providedGasSum (ctx.allCalls.take k)) ∨
      (0 < zeroGasCount ctx.allCalls ∧ gasLeft ≤ providedGasSum ctx.allCalls)) ∧
    ((setupAsyncCallsGas gasLeft ctx).2 = Except.ok () →
      (setupAsyncCallsGas gasLeft ctx).1 =
        specGasAssignment
          ((gasLeft - providedGasSum ctx.allCalls) / zeroGasCount ctx.allCalls)
          (0 < zeroGasCount ctx.allCalls) ctx) := by
  have hall : ctx.allCalls = (ctx.asyncCallGroups.map AsyncCallGroup.asyncCalls).flatten := rfl
  have htake : ∀ k, providedGasSum (ctx.allCalls.take k) ≤ providedGasSum ctx.allCalls :=
    fun k => providedGasSum_take_le _ k
  rcases hl : setupGasLoopGroups gasLeft 0 0 ctx.asyncCallGroups with ⟨groups, gn, zc, r⟩
  have hiff := setupGasLoopGroups_ok_iff gasLeft hg ctx.asyncCallGroups 0 0 (Nat.zero_le _)
  have honly := setupGasLoopGroups_only_notEnoughGas gasLeft ctx.asyncCallGroups 0 0
  rw [hl] at hiff honly
  simp only at hiff honly
  rw [← hall] at hiff
  cases r with
  | error e =>
    have he : e = HostError.notEnoughGas := by
      rcases honly with h | h
      · exact absurd h (by simp)
      · simpa using h
    subst he
    have hgt : gasLeft < providedGasSum ctx.allCalls := by
      by_contra hc
      push_neg at hc
      have := hiff.mpr (by omega)
      simp at this
    simp only [setupAsyncCallsGas, hl]
    refine ⟨iff_of_true (by simp) ?_, ?_⟩
    · exact Or.inl ⟨ctx.allCalls.length, by rw [List.take_length]; exact Or.inl hgt⟩
    · intro h; exact absurd h (by simp)
  | ok _ =>
    have hS : providedGasSum ctx.allCalls ≤ gasLeft := by
      have := hiff.mp rfl
      omega
    obtain ⟨e1, e2, e3⟩ := setupGasLoopGroups_ok_parts gasLeft ctx.asyncCallGroups 0 0
      (by rw [hl])
    rw [hl] at e1 e2 e3
    simp only at e1 e2 e3
    rw [← hall] at e2 e3
    simp only [setupAsyncCallsGas, hl]
    by_cases hzc : zc = 0
    · rw [if_pos hzc]
      have hcount : zeroGasCount ctx.allCalls = 0 := by omega
      refine ⟨iff_of_false (by simp) ?_, ?_⟩
      · rintro (⟨k, hk | hk⟩ | ⟨hpos, -⟩)
        · exact absurd hk (by have := htake k; omega)
        · exact absurd hk (by have := htake k; omega)
        · omega
      · rintro -
        show (⟨groups⟩ : AsyncContext) = _
        rw [specGasAssignment_not
          ((gasLeft - providedGasSum ctx.allCalls) / zeroGasCount ctx.allCalls)
          (0 < zeroGasCount ctx.allCalls) (by omega) ctx]
        exact congrArg AsyncContext.mk e1
    · rw [if_neg hzc]
      have hcount : 0 < zeroGasCount ctx.allCalls := by omega
      by_cases hle : gasLeft ≤ gn
      · rw [if_pos hle]
        refine ⟨iff_of_true (by simp) (Or.inr ⟨hcount, by omega⟩), ?_⟩
        · intro h; exact absurd h (by simp)
      · rw [if_neg hle]
        refine ⟨iff_of_false (by simp) ?_, ?_⟩
        · rintro (⟨k, hk | hk⟩ | ⟨-, hk⟩)
          · exact absurd hk (by have := htake k; omega)
          · exact absurd hk (by have := htake k; omega)
          · omega
        · rintro -
          show (⟨assignShare ((gasLeft - gn) / zc) groups⟩ : AsyncContext) = _
          have hshare : (gasLeft - gn) / zc =
              (gasLeft - providedGasSum ctx.allCalls) / zeroGasCount ctx.allCalls := by
            rw [e2, e3]; simp
          rw [specGasAssignment_yes _ _ hcount ctx]
          rw [hshare, e1]

/-- Witness for `setupAsyncCallsGas_correct` at a concrete balance and
context (one 5-gas call and one zero-gas call, balance 100). -/
theorem setupAsyncCallsGas_correct_witness :
    (100 : Nat) < U64 ∧
    (((setupAsyncCallsGas 100 mixedGasCtx).2 = Except.error HostError.notEnoughGas ↔
        (∃ k, 100 < providedGasSum (mixedGasCtx.allCalls.take k) ∨
              U64 ≤ providedGasSum (mixedGasCtx.allCalls.take k)) ∨
        (0 < zeroGasCount mixedGasCtx.allCalls ∧
          100 ≤ providedGasSum mixedGasCtx.allCalls)) ∧
      ((setupAsyncCallsGas 100 mixedGasCtx).2 = Except.ok () →
        (setupAsyncCallsGas 100 mixedGasCtx).1 =
          specGasAssignment
            ((100 - providedGasSum mixedGasCtx.allCalls) /
              zeroGasCount mixedGasCtx.allCalls)
            (0 < zeroGasCount mixedGasCtx.allCalls) mixedGasCtx)) :=
  ⟨by decide, setupAsyncCallsGas_correct 100 mixedGasCtx (by decide)⟩

/-! ## Storage-write preservation through the executors -/

theorem runExecOnDest_storageWrites (env : HostEnv) (s : HostState)
    (input : ContractCallInput) :
    (runExecOnDest env s input).2.2.storageWrites = s.storageWrites := rfl

theorem executeSyncCall_storageWrites (env : HostEnv) (s : HostState) (call : AsyncCall) :
    (executeSyncCall env s call).2.2.storageWrites = s.storageWrites := by
  unfold executeSyncCall
  cases createSyncCallInput env call <;> rfl

theorem executeSyncCallback_storageWrites (env : HostEnv) (s : HostState)
    (call : AsyncCall) (out : VMOutput) (err : Option HostError) :
    (executeSyncCallback env s call out err).2.2.storageWrites = s.storageWrites := by
  unfold executeSyncCallback
  cases createSyncCallbackInput env call out err <;> rfl

theorem finishSyncExecution_storageWrites (env : HostEnv) (s : HostState)
    (out : Option VMOutput) (err : Option HostError) :
    (finishSyncExecution env s out err).storageWrites = s.storageWrites := by
  unfold finishSyncExecution
  cases err <;> cases out <;> rfl

theorem sendAsyncCallCrossShard_storageWrites (env : HostEnv) (s : HostState)
    (call : AsyncCall) :
    (sendAsyncCallCrossShard env s call).1.storageWrites = s.storageWrites := by
  unfold sendAsyncCallCrossShard
  cases env.transferErr <;> rfl

theorem executeAsyncCall_storageWrites (env : HostEnv) (s : HostState)
    (call : AsyncCall) (so : Bool) :
    (executeAsyncCall env s call so).state.storageWrites = s.storageWrites := by
  unfold executeAsyncCall
  cases hm : determineAsyncCallExecutionMode env call with
  | error e => rfl
  | ok m =>
    simp only
    by_cases h1 : m = AsyncCallExecutionMode.syncExecution
    · rw [if_pos h1]
      rcases hsc : executeSyncCall env s call with ⟨o, err, s1⟩
      have p1 := executeSyncCall_storageWrites env s call
      rw [hsc] at p1
      simp only at p1
      cases o with
      | none => simpa using p1
      | some out =>
        simp only
        rcases hcb : executeSyncCallback env s1 (call.updateStatus out.returnCode) out err
          with ⟨co, ce, s2⟩
        have p2 := executeSyncCallback_storageWrites env s1
          (call.updateStatus out.returnCode) out err
        rw [hcb] at p2
        simp only at p2
        have p3 := finishSyncExecution_storageWrites env s2 co ce
        simp only [hcb]
        rw [p3, p2, p1]
    · rw [if_neg h1]
      by_cases h2 : so
      · rw [if_pos h2]
      · rw [if_neg h2]
        by_cases h3 : m = AsyncCallExecutionMode.asyncBuiltinFunc
        · rw [if_pos h3]
          rcases hsc : executeSyncCall env s call with ⟨o, err, s1⟩
          have p1 := executeSyncCall_storageWrites env s call
          rw [hsc] at p1
          simp only at p1
          cases err with
          | some e => simpa using p1
          | none =>
            cases o with
            | none => simpa using p1
            | some out =>
              simp only
              by_cases h4 : out.returnCode ≠ 0
              · rw [if_pos h4]
                rcases hcb : executeSyncCallback env s1
                    (call.updateStatus out.returnCode) out none with ⟨co, ce, s2⟩
                have p2 := executeSyncCallback_storageWrites env s1
                  (call.updateStatus out.returnCode) out none
                rw [hcb] at p2
                simp only at p2
                have p3 := finishSyncExecution_storageWrites env s2 co ce
                simp only [hcb]
                rw [p3, p2, p1]
              · rw [if_neg h4]
                exact p1
        · rw [if_neg h3]
          have := sendAsyncCallCrossShard_storageWrites env s call
          rcases hsd : sendAsyncCallCrossShard env s call with ⟨s1, r1⟩
          rw [hsd] at this
          simpa [hsd] using this

theorem executeCallsLoop_storageWrites (env : HostEnv) (so : Bool)
    (calls : List AsyncCall) (s : HostState) :
    (executeCallsLoop env so s calls).1.storageWrites = s.storageWrites := by
  induction calls generalizing s with
  | nil => rfl
  | cons c rest ih =>
    simp only [executeCallsLoop]
    have p1 := executeAsyncCall_storageWrites env s c so
    cases hr : (executeAsyncCall env s c so).result with
    | error e => simpa using p1
    | ok _ =>
      simp only
      rw [ih (executeAsyncCall env s c so).state]
      exact p1

theorem executeAsyncCallGroup_storageWrites (env : HostEnv) (s : HostState)
    (group : AsyncCallGroup) (so : Bool) :
    (executeAsyncCallGroup env s group so).state.storageWrites = s.storageWrites := by
  unfold executeAsyncCallGroup
  have p1 := executeCallsLoop_storageWrites env so group.asyncCalls s
  rcases hl : executeCallsLoop env so s group.asyncCalls with ⟨s1, calls', r⟩
  rw [hl] at p1
  simp only at p1
  cases r with
  | error e => simpa [hl] using p1
  | ok _ =>
    simp only [hl]
    split <;> simpa [executeAsyncCallGroupCallback] using p1

theorem sweepSyncGroups_storageWrites (env : HostEnv)
    (groups : List AsyncCallGroup) (s : HostState) :
    (sweepSyncGroups env s groups).1.storageWrites = s.storageWrites := by
  induction groups generalizing s with
  | nil => rfl
  | cons g rest ih =>
    simp only [sweepSyncGroups]
    have p1 := executeAsyncCallGroup_storageWrites env s g true
    cases hr : (executeAsyncCallGroup env s g true).result with
    | error e => simpa using p1
    | ok _ =>
      simp only
      have p2 := ih (executeAsyncCallGroup env s g true).state
      split <;> simp <;> rw [p2, p1]

theorem sweepAsyncGroups_storageWrites (env : HostEnv)
    (groups : List AsyncCallGroup) (s : HostState) :
    (sweepAsyncGroups env s groups).1.storageWrites = s.storageWrites := by
  induction groups generalizing s with
  | nil => rfl
  | cons g rest ih =>
    simp only [sweepAsyncGroups]
    have p1 := executeAsyncCallGroup_storageWrites env s g false
    cases hr : (executeAsyncCallGroup env s g false).result with
    | error e => simpa using p1
    | ok _ =>
      simp only
      rw [ih (executeAsyncCallGroup env s g false).state]
      exact p1

/-- Shape of a successful driver run: either no groups remain and the
driver wrote nothing, or groups remain and it wrote exactly one record
under the async-data key holding the serialized residual context; and the
residual context holds no legacy group. -/
theorem executeCurrentAsyncContext_ok_shape (env : HostEnv) (s : HostState)
    (ctx : AsyncContext)
    (h : (executeCurrentAsyncContext env s ctx).result = Except.ok ()) :
    (((executeCurrentAsyncContext env s ctx).ctx.asyncCallGroups = [] ∧
      (executeCurrentAsyncContext env s ctx).state.storageWrites = s.storageWrites) ∨
     ((executeCurrentAsyncContext env s ctx).ctx.asyncCallGroups ≠ [] ∧
      (executeCurrentAsyncContext env s ctx).state.storageWrites =
        s.storageWrites ++ [(CustomStorageKey AsyncDataPrefix env.prevTxHash,
          serializeAsyncContext (executeCurrentAsyncContext env s ctx).ctx)])) ∧
    (∀ g ∈ (executeCurrentAsyncContext env s ctx).ctx.asyncCallGroups,
      g.identifier ≠ LegacyAsyncCallGroupID) := by
  unfold executeCurrentAsyncContext at h ⊢
  by_cases hc : ctx.isCompleted
  · rw [if_pos hc] at h ⊢
    have hnil : ctx.asyncCallGroups = [] := by
      simpa [AsyncContext.isCompleted, List.isEmpty_iff] using hc
    exact ⟨Or.inl ⟨hnil, rfl⟩, by simp [hnil]⟩
  · rw [if_neg hc] at h ⊢
    split at h
    next ctx1 r1 heq1 =>
      simp only [heq1]
      cases r1 with
      | error e => simp at h
      | ok u1 =>
        simp only at h ⊢
        split at h
        next e heq2 => simp at h
        next u2 heq2 =>
          split at h
          next e heq3 => simp at h
          next u3 heq3 =>
            split at h
            next e heq4 => simp at h
            next u4 heq4 =>
              set S1 := (sweepSyncGroups env s ctx1.asyncCallGroups).1 with hS1
              set G1 := (sweepSyncGroups env s ctx1.asyncCallGroups).2.1 with hG1
              set C2 := (setupAsyncCallsGas S1.gasLeft ⟨G1⟩).1 with hC2
              set S2 := (sweepAsyncGroups env S1 C2.asyncCallGroups).1 with hS2
              set G2 := (sweepAsyncGroups env S1 C2.asyncCallGroups).2.1 with hG2
              have hw : S2.storageWrites = s.storageWrites := by
                rw [hS2, hS1]
                rw [sweepAsyncGroups_storageWrites, sweepSyncGroups_storageWrites]
              set C3 := AsyncContext.deleteAsyncCallGroupByID ⟨G2⟩ LegacyAsyncCallGroupID with hC3
              have hleg : ∀ g ∈ C3.asyncCallGroups, g.identifier ≠ LegacyAsyncCallGroupID := by
                intro g hg
                rw [hC3] at hg
                simp [AsyncContext.deleteAsyncCallGroupByID, List.mem_filter] at hg
                exact hg.2
              refine ⟨?_, ?_⟩
              · by_cases hemp : C3.asyncCallGroups.isEmpty
                · left
                  refine ⟨by simpa [List.isEmpty_iff] using hemp, ?_⟩
                  simp only [saveAsyncContext, if_pos hemp]
                  exact hw
                · right
                  refine ⟨by simpa [List.isEmpty_iff] using hemp, ?_⟩
                  simp only [saveAsyncContext, if_neg hemp]
                  simp [hw]
              · exact hleg

/-- C2: for every AsyncContext entered by the driver that returns without
error, either no groups remain and the driver performed no storage write,
or at least one group remains and exactly one storage write occurred, to
the key AsyncDataPrefix concatenated with the previous transaction hash,
holding the serialization of the residual context. -/
theorem executeCurrentAsyncContext_persistence (env : HostEnv) (s : HostState)
    (ctx : AsyncContext)
    (h : (executeCurrentAsyncContext env s ctx).result = Except.ok ()) :
    ((executeCurrentAsyncContext env s ctx).ctx.asyncCallGroups = [] ∧
     (executeCurrentAsyncContext env s ctx).state.storageWrites = s.storageWrites) ∨
    ((executeCurrentAsyncContext env s ctx).ctx.asyncCallGroups ≠ [] ∧
     (executeCurrentAsyncContext env s ctx).state.storageWrites =
       s.storageWrites ++ [(CustomStorageKey AsyncDataPrefix env.prevTxHash,
         serializeAsyncContext (executeCurrentAsyncContext env s ctx).ctx)]) :=
  (executeCurrentAsyncContext_ok_shape env s ctx h).1

/-- Witness for `executeCurrentAsyncContext_persistence`: a context with a
single remote non-built-in call survives the sweeps and is persisted. -/
theorem executeCurrentAsyncContext_persistence_witness :
    ((executeCurrentAsyncContext nbEnv sampleState remoteCtx).result = Except.ok ()) ∧
    (((executeCurrentAsyncContext nbEnv sampleState remoteCtx).ctx.asyncCallGroups = [] ∧
      (executeCurrentAsyncContext nbEnv sampleState remoteCtx).state.storageWrites =
        sampleState.storageWrites) ∨
     ((executeCurrentAsyncContext nbEnv sampleState remoteCtx).ctx.asyncCallGroups ≠ [] ∧
      (executeCurrentAsyncContext nbEnv sampleState remoteCtx).state.storageWrites =
        sampleState.storageWrites ++
          [(CustomStorageKey AsyncDataPrefix nbEnv.prevTxHash,
            serializeAsyncContext (executeCurrentAsyncContext nbEnv sampleState remoteCtx).ctx)])) :=
  ⟨rfl, executeCurrentAsyncContext_persistence nbEnv sampleState remoteCtx rfl⟩

/-- C9: for every AsyncContext on which the driver succeeds, the residual
context it persists contains no group whose identifier is
LegacyAsyncCallGroupID, and any storage write the driver performed holds
exactly the serialization of that legacy-free residual. -/
theorem executeCurrentAsyncContext_noLegacyPersisted (env : HostEnv) (s : HostState)
    (ctx : AsyncContext)
    (h : (executeCurrentAsyncContext env s ctx).result = Except.ok ()) :
    (∀ g ∈ (executeCurrentAsyncContext env s ctx).ctx.asyncCallGroups,
      g.identifier ≠ LegacyAsyncCallGroupID) ∧
    ((executeCurrentAsyncContext env s ctx).state.storageWrites = s.storageWrites ∨
     (executeCurrentAsyncContext env s ctx).state.storageWrites =
       s.storageWrites ++ [(CustomStorageKey AsyncDataPrefix env.prevTxHash,
         serializeAsyncContext (executeCurrentAsyncContext env s ctx).ctx)]) := by
  obtain ⟨hdisj, hleg⟩ := executeCurrentAsyncContext_ok_shape env s ctx h
  exact ⟨hleg, hdisj.elim (fun x => Or.inl x.2) (fun x => Or.inr x.2)⟩

/-- Witness for `executeCurrentAsyncContext_noLegacyPersisted`: a context
holding only the legacy group is emptied before persistence. -/
theorem executeCurrentAsyncContext_noLegacyPersisted_witness :
    ((executeCurrentAsyncContext nbEnv sampleState legacyCtx).result = Except.ok ()) ∧
    ((∀ g ∈ (executeCurrentAsyncContext nbEnv sampleState legacyCtx).ctx.asyncCallGroups,
        g.identifier ≠ LegacyAsyncCallGroupID) ∧
     ((executeCurrentAsyncContext nbEnv sampleState legacyCtx).state.storageWrites =
        sampleState.storageWrites ∨
      (executeCurrentAsyncContext nbEnv sampleState legacyCtx).state.storageWrites =
        sampleState.storageWrites ++
          [(CustomStorageKey AsyncDataPrefix nbEnv.prevTxHash,
            serializeAsyncContext
              (executeCurrentAsyncContext nbEnv sampleState legacyCtx).ctx)])) :=
  ⟨rfl, executeCurrentAsyncContext_noLegacyPersisted nbEnv sampleState legacyCtx rfl⟩

/-- C3 (code bug): a same-shard call whose GasLimit equals AsyncCallStep is
classified SyncExecution, yet `executeSyncCall` returns a nil VMOutput with
a NotEnoughGas error, and `executeAsyncCall` dereferences that nil output
(the code's own comment asserts the output is never nil). -/
theorem executeSyncCall_nilOutput_dereferenced :
    determineAsyncCallExecutionMode sampleEnv stepGasCall
        = Except.ok AsyncCallExecutionMode.syncExecution ∧
    (executeSyncCall sampleEnv sampleState stepGasCall).1 = none ∧
    (executeSyncCall sampleEnv sampleState stepGasCall).2.1
        = some HostError.notEnoughGas ∧
    (executeAsyncCall sampleEnv sampleState stepGasCall true).result
        = Except.error HostError.nilPointerPanic :=
  ⟨rfl, rfl, rfl, rfl⟩

theorem executeCallsLoop_error_ne_nil (env : HostEnv) (so : Bool) (s : HostState)
    (calls : List AsyncCall) (e : HostError)
    (h : (executeCallsLoop env so s calls).2.2 = Except.error e) :
    (executeCallsLoop env so s calls).2.1 ≠ [] := by
  cases calls with
  | nil => simp [executeCallsLoop] at h
  | cons c rest =>
    simp only [executeCallsLoop]
    cases hr : (executeAsyncCall env s c so).result with
    | error e2 => simp [hr]
    | ok u => simp [hr]

/-- C4 (amended): the group-level callback hook is invoked exactly when the
group is completed after pruning, regardless of the syncOnly flag. -/
theorem executeAsyncCallGroup_callback_iff (env : HostEnv) (s : HostState)
    (group : AsyncCallGroup) (syncOnly : Bool) :
    (executeAsyncCallGroup env s group syncOnly).groupCallbackInvoked = true ↔
      (executeAsyncCallGroup env s group syncOnly).group.isCompleted = true := by
  unfold executeAsyncCallGroup
  cases hr : (executeCallsLoop env syncOnly s group.asyncCalls).2.2 with
  | error e =>
    have hne := executeCallsLoop_error_ne_nil env syncOnly s group.asyncCalls e hr
    simp only [hr]
    constructor
    · intro hinv; exact absurd hinv (by simp)
    · intro hcomp
      exact absurd hcomp (by simpa [AsyncCallGroup.isCompleted, List.isEmpty_iff] using hne)
  | ok u =>
    simp only [hr]
    by_cases hcomp : (AsyncCallGroup.deleteCompletedAsyncCalls
        { group with asyncCalls := (executeCallsLoop env syncOnly s group.asyncCalls).2.1 }).isCompleted
    · rw [if_pos hcomp]
      simpa [executeAsyncCallGroupCallback] using hcomp
    · rw [if_neg hcomp]
      simpa using hcomp

/-- C4 (counterexample): on an already-empty group with syncOnly = false,
the group is completed and the callback hook is nevertheless invoked,
refuting that the callback runs only when syncOnly is true. -/
theorem groupCallbackRunsWithSyncOnlyFalse :
    (executeAsyncCallGroup sampleEnv sampleState emptyGroup false).groupCallbackInvoked
        = true ∧
    (executeAsyncCallGroup sampleEnv sampleState emptyGroup false).group.isCompleted
        = true :=
  ⟨rfl, rfl⟩

theorem finishSyncExecution_execLog (env : HostEnv) (s : HostState)
    (out : Option VMOutput) (err : Option HostError) :
    (finishSyncExecution env s out err).execLog = s.execLog := by
  unfold finishSyncExecution
  cases err <;> cases out <;> rfl

theorem createSyncCallbackInput_arguments (env : HostEnv) (call : AsyncCall)
    (out : VMOutput) (derr : Option HostError) (input : ContractCallInput)
    (h : createSyncCallbackInput env call out derr = Except.ok input) :
    input.arguments = bigIntBytes out.returnCode ::
      (if derr.isNone then out.returnData else [strBytes out.returnMessage]) := by
  unfold createSyncCallbackInput at h
  split at h <;> rename_i hio <;> dsimp only at h <;> split at h
  · exact absurd h (by simp)
  · cases h; simp [hio]
  · exact absurd h (by simp)
  · cases h; simp [hio]

theorem createSyncCallbackInput_gasProvided (env : HostEnv) (call : AsyncCall)
    (out : VMOutput) (derr : Option HostError) (input : ContractCallInput)
    (h : createSyncCallbackInput env call out derr = Except.ok input) :
    input.gasProvided = (out.gasRemaining + call.gasLocked) % U64 -
      (env.asyncCallStep + env.dataCopyPerByte *
        computeDataLengthFromArguments call.successCallback
          (bigIntBytes out.returnCode ::
            (if derr.isNone then out.returnData
             else [strBytes out.returnMessage]))) % U64 := by
  unfold createSyncCallbackInput at h
  split at h <;> rename_i hio <;> dsimp only at h <;> split at h
  · exact absurd h (by simp)
  · cases h; simp [hio]
  · exact absurd h (by simp)
  · cases h; simp [hio]

/-- C5 (amended): when the forward result of a same-shard call is applied
but building the callback input fails, no callback executes: the error is
consumed by `finishSyncExecution` (which appends the failure finish frames
without touching the execution log) and the per-call executor returns
success, not the error. -/
theorem executeAsyncCall_callbackSynthesisSwallowed (env : HostEnv) (s : HostState)
    (call : AsyncCall) (syncOnly : Bool) (out : VMOutput) (fwdErr : Option HostError)
    (s1 : HostState) (e : HostError)
    (hmode : determineAsyncCallExecutionMode env call
        = Except.ok AsyncCallExecutionMode.syncExecution)
    (hfwd : executeSyncCall env s call = (some out, fwdErr, s1))
    (hcb : createSyncCallbackInput env (call.updateStatus out.returnCode) out fwdErr
        = Except.error e) :
    executeAsyncCall env s call syncOnly =
      ⟨finishSyncExecution env s1 none (some e), call.updateStatus out.returnCode,
        Except.ok ()⟩ ∧
    (finishSyncExecution env s1 none (some e)).execLog = s1.execLog := by
  refine ⟨?_, finishSyncExecution_execLog env s1 none (some e)⟩
  unfold executeAsyncCall
  rw [hmode]
  simp only [hfwd]
  unfold executeSyncCallback
  rw [hcb]
  rfl

/-- C5 (counterexample): a same-shard call whose callback fee cannot be
paid: the callback input build fails with NotEnoughGas, yet the per-call
executor returns success (the claim asserts it returns the error), and
only the forward call was executed. -/
theorem callbackSynthesisFailureNotSurfaced :
    createSyncCallbackInput sampleEnv (AsyncCall.updateStatus leanGasCall 0)
        sampleVMOut none = Except.error HostError.notEnoughGas ∧
    (executeAsyncCall sampleEnv sampleState leanGasCall true).result = Except.ok () ∧
    (executeAsyncCall sampleEnv sampleState leanGasCall true).state.execLog
        = [c5ForwardInput] :=
  ⟨rfl, rfl, rfl⟩

/-- Witness for `executeAsyncCall_callbackSynthesisSwallowed` at the
concrete lean-gas call. -/
theorem executeAsyncCall_callbackSynthesisSwallowed_witness :
    (executeAsyncCall sampleEnv sampleState leanGasCall true =
      ⟨finishSyncExecution sampleEnv c5MidState none (some HostError.notEnoughGas),
        AsyncCall.updateStatus leanGasCall 0, Except.ok ()⟩) ∧
    (finishSyncExecution sampleEnv c5MidState none
        (some HostError.notEnoughGas)).execLog = c5MidState.execLog :=
  executeAsyncCall_callbackSynthesisSwallowed sampleEnv sampleState leanGasCall true
    sampleVMOut none c5MidState HostError.notEnoughGas rfl rfl rfl

/-- C6 (amended): for a remote built-in call whose local execution returns
a non-Ok code with no error, the status becomes ResolvedFailed, the
callback runs with the minimal big-endian return-code bytes followed by
the VMOutput return-data entries (the forward error is nil, so the return
message is not passed), and the call is pruned from any group holding it. -/
theorem executeAsyncCall_builtinFailing (env : HostEnv) (s : HostState)
    (call : AsyncCall) (out : VMOutput) (s1 : HostState) (cbIn : ContractCallInput)
    (hmode : determineAsyncCallExecutionMode env call
        = Except.ok AsyncCallExecutionMode.asyncBuiltinFunc)
    (hfwd : executeSyncCall env s call = (some out, none, s1))
    (hrc : out.returnCode ≠ 0)
    (hcb : createSyncCallbackInput env (call.updateStatus out.returnCode) out none
        = Except.ok cbIn) :
    (executeAsyncCall env s call false).call.status = AsyncCallStatus.resolvedFailed ∧
    cbIn.arguments = bigIntBytes out.returnCode :: out.returnData ∧
    (executeAsyncCall env s call false).state.execLog = s1.execLog ++ [cbIn] ∧
    (∀ cbName gid : String,
      (AsyncCallGroup.deleteCompletedAsyncCalls
        ⟨cbName, gid, [(executeAsyncCall env s call false).call]⟩).asyncCalls = []) := by
  have hred : executeAsyncCall env s call false =
      ⟨finishSyncExecution env (runExecOnDest env s1 cbIn).2.2
          (some (runExecOnDest env s1 cbIn).1) (runExecOnDest env s1 cbIn).2.1,
        call.updateStatus out.returnCode, Except.ok ()⟩ := by
    unfold executeAsyncCall
    rw [hmode]
    dsimp only
    rw [hfwd]
    dsimp only
    rw [if_pos hrc]
    unfold executeSyncCallback
    rw [hcb]
    rfl
  have hargs := createSyncCallbackInput_arguments env (call.updateStatus out.returnCode)
    out none cbIn hcb
  have hstatus : (call.updateStatus out.returnCode).status
      = AsyncCallStatus.resolvedFailed := by
    simp [AsyncCall.updateStatus, hrc]
  refine ⟨?_, ?_, ?_, ?_⟩
  · rw [hred]; exact hstatus
  · simpa using hargs
  · rw [hred]
    show (finishSyncExecution env (runExecOnDest env s1 cbIn).2.2
        (some (runExecOnDest env s1 cbIn).1) (runExecOnDest env s1 cbIn).2.1).execLog
      = s1.execLog ++ [cbIn]
    rw [finishSyncExecution_execLog]
    rfl
  · intro cbName gid
    rw [hred]
    simp [AsyncCallGroup.deleteCompletedAsyncCalls, hstatus]

/-- C6 (counterexample): a remote built-in failing with return code 4 and
two return-data entries: the callback receives three arguments (the code
bytes and both data entries), not the claimed pair of code bytes and
return-message bytes. -/
theorem builtinFailingCallbackArgsNotCodeMessagePair :
    ((executeAsyncCall builtinEnv sampleState remoteCall false).state.execLog.map
        ContractCallInput.arguments) = [[], [[4], [1], [2]]] ∧
    (executeAsyncCall builtinEnv sampleState remoteCall false).call.status
        = AsyncCallStatus.resolvedFailed ∧
    ([[4], [1], [2]] : List (List Nat)) ≠ [bigIntBytes 4, strBytes "boom"] :=
  ⟨rfl, rfl, by decide⟩

/-- Witness for `executeAsyncCall_builtinFailing` at the concrete failing
built-in scenario. -/
theorem executeAsyncCall_builtinFailing_witness :
    (executeAsyncCall builtinEnv sampleState remoteCall false).call.status
        = AsyncCallStatus.resolvedFailed ∧
    c6CallbackInput.arguments = bigIntBytes builtinFailOut.returnCode ::
        builtinFailOut.returnData ∧
    (executeAsyncCall builtinEnv sampleState remoteCall false).state.execLog
        = c6MidState.execLog ++ [c6CallbackInput] ∧
    (∀ cbName gid : String,
      (AsyncCallGroup.deleteCompletedAsyncCalls
        ⟨cbName, gid,
          [(executeAsyncCall builtinEnv sampleState remoteCall false).call]⟩).asyncCalls
        = []) :=
  executeAsyncCall_builtinFailing builtinEnv sampleState remoteCall builtinFailOut
    c6MidState c6CallbackInput rfl rfl (by decide) rfl

/-- C7 (amended): when the call data cannot be parsed, classification
fails and the per-call executor surfaces the parse error unchanged: the
state is untouched and in particular no outbound transfer is emitted. -/
theorem executeAsyncCall_parseFailureSurfaced (env : HostEnv) (s : HostState)
    (call : AsyncCall) (syncOnly : Bool)
    (h : env.parseData call.data = Except.error ()) :
    executeAsyncCall env s call syncOnly
        = ⟨s, call, Except.error HostError.invalidCallData⟩ := by
  unfold executeAsyncCall determineAsyncCallExecutionMode determineExecutionMode
  rw [h]

/-- C7 (counterexample): a call with unparsable data makes the executor
return the parse error; no outbound transfer record is emitted, refuting
that the call is forwarded cross-shard. -/
theorem unparsableCallNotForwarded :
    (executeAsyncCall sampleEnv sampleState badDataCall false).result
        = Except.error HostError.invalidCallData ∧
    (executeAsyncCall sampleEnv sampleState badDataCall false).state.transfers = [] :=
  ⟨rfl, rfl⟩

/-- Witness for `executeAsyncCall_parseFailureSurfaced` at the concrete
unparsable call. -/
theorem executeAsyncCall_parseFailureSurfaced_witness :
    executeAsyncCall sampleEnv sampleState badDataCall false
        = ⟨sampleState, badDataCall, Except.error HostError.invalidCallData⟩ :=
  executeAsyncCall_parseFailureSurfaced sampleEnv sampleState badDataCall false rfl

/-- C8 (amended): when gas allocation fails, the driver returns that error
with the host state exactly as it was — no call executed, no transfer, no
storage write — though the returned context may already carry GasLimit
assignments made to nonzero-gas calls before the failing accumulation
step. -/
theorem executeCurrentAsyncContext_allocFailureAborts (env : HostEnv) (s : HostState)
    (ctx ctx1 : AsyncContext) (e : HostError)
    (hne : ctx.isCompleted = false)
    (halloc : setupAsyncCallsGas s.gasLeft ctx = (ctx1, Except.error e)) :
    executeCurrentAsyncContext env s ctx = ⟨s, ctx1, Except.error e⟩ := by
  unfold executeCurrentAsyncContext
  rw [if_neg (by simp [hne])]
  rw [halloc]

/-- C8 (counterexample): allocation fails on the second call, yet the
first call's GasLimit was already set to its ProvidedGas (5) by the failed
allocation, refuting that no AsyncCall field is modified. -/
theorem allocationFailureMutatesGasLimit :
    (executeCurrentAsyncContext sampleEnv { sampleState with gasLeft := 100 }
        overGasCtx).result = Except.error HostError.notEnoughGas ∧
    (executeCurrentAsyncContext sampleEnv { sampleState with gasLeft := 100 }
        overGasCtx).ctx
      = ⟨[⟨"cb", "g1", [{ sampleCall with providedGas := 5, gasLimit := 5 },
                        { sampleCall with providedGas := 200 }]⟩]⟩ ∧
    ({ sampleCall with providedGas := 5 } : AsyncCall).gasLimit = 0 :=
  ⟨rfl, rfl, rfl⟩

/-- Witness for `executeCurrentAsyncContext_allocFailureAborts` on the
over-demanding context. -/
theorem executeCurrentAsyncContext_allocFailureAborts_witness :
    executeCurrentAsyncContext sampleEnv { sampleState with gasLeft := 100 } overGasCtx
      = ⟨{ sampleState with gasLeft := 100 },
         ⟨[⟨"cb", "g1", [{ sampleCall with providedGas := 5, gasLimit := 5 },
                         { sampleCall with providedGas := 200 }]⟩]⟩,
         Except.error HostError.notEnoughGas⟩ :=
  executeCurrentAsyncContext_allocFailureAborts sampleEnv
    { sampleState with gasLeft := 100 } overGasCtx
    ⟨[⟨"cb", "g1", [{ sampleCall with providedGas := 5, gasLimit := 5 },
                    { sampleCall with providedGas := 200 }]⟩]⟩
    HostError.notEnoughGas rfl rfl

theorem flatSeparatedLength (args : List (List Nat)) :
    ((args.map (fun a => 64 :: a)).flatten).length
        = args.length + (args.map List.length).sum := by
  induction args with
  | nil => rfl
  | cons a rest ih => simp_all [List.flatten_cons]; omega

/-- C10 (amended): the callback data length is
len(name) + number_of_arguments + sum of argument lengths, which equals
the length of the flat encoding name@arg1@...@argN for every argument
list including the empty one (no overcount); the callback fee subtracted
from the available gas is AsyncCallStep + DataCopyPerByte × dataLength
(uint64 arithmetic). -/
theorem computeDataLength_fee (f : String) (args : List (List Nat))
    (env : HostEnv) (call : AsyncCall) (out : VMOutput) (derr : Option HostError)
    (input : ContractCallInput)
    (h : createSyncCallbackInput env call out derr = Except.ok input) :
    computeDataLengthFromArguments f args
        = f.length + args.length + (args.map List.length).sum ∧
    computeDataLengthFromArguments f args = (flatEncoding f args).length ∧
    input.gasProvided = (out.gasRemaining + call.gasLocked) % U64 -
      (env.asyncCallStep + env.dataCopyPerByte *
        computeDataLengthFromArguments call.successCallback
          (bigIntBytes out.returnCode ::
            (if derr.isNone then out.returnData
             else [strBytes out.returnMessage]))) % U64 := by
  refine ⟨rfl, ?_, createSyncCallbackInput_gasProvided env call out derr input h⟩
  unfold flatEncoding computeDataLengthFromArguments
  rw [List.length_append, flatSeparatedLength]
  have hs : (strBytes f).length = f.length := by
    unfold strBytes
    rw [List.length_map]
    rfl
  rw [hs]
  omega

/-- C10 (counterexample): with an empty argument list the formula equals
the flat-encoding length exactly; it does not overcount by one. -/
theorem dataLengthDoesNotOvercountEmptyArgs :
    computeDataLengthFromArguments "cb" [] = (flatEncoding "cb" []).length ∧
    ¬ computeDataLengthFromArguments "cb" []
        = (flatEncoding "cb" []).length + 1 :=
  ⟨by decide, by decide⟩

/-- Witness for `computeDataLength_fee` at a concrete callback input. -/
theorem computeDataLength_fee_witness :
    (createSyncCallbackInput sampleEnv sampleCall feeWitnessOut none
        = Except.ok feeWitnessInput) ∧
    (computeDataLengthFromArguments "cb" ([] : List (List Nat))
        = "cb".length + ([] : List (List Nat)).length
            + (([] : List (List Nat)).map List.length).sum ∧
     computeDataLengthFromArguments "cb" ([] : List (List Nat))
        = (flatEncoding "cb" []).length ∧
     feeWitnessInput.gasProvided
        = (feeWitnessOut.gasRemaining + sampleCall.gasLocked) % U64 -
          (sampleEnv.asyncCallStep + sampleEnv.dataCopyPerByte *
            computeDataLengthFromArguments sampleCall.successCallback
              (bigIntBytes feeWitnessOut.returnCode ::
                (if (none : Option HostError).isNone then feeWitnessOut.returnData
                 else [strBytes feeWitnessOut.returnMessage]))) % U64) :=
  ⟨rfl, computeDataLength_fee "cb" [] sampleEnv sampleCall feeWitnessOut none
    feeWitnessInput rfl⟩

end Arwen
